import Mathlib

/-!
Verification development for the climate-health-news keyword-relevance
scoring and classification-merge subsystem.

The definitions below are shallow embeddings of:
  * `src/preprocess/merge_classifications.py` (`merge_classifications`),
  * `src/classify/keyword_classifier.py` (`BM25KeywordClassifier`,
    `classify_with_keywords`) together with the `BM25Okapi` scorer from the
    `rank_bm25` library that it instantiates (parameters `k1 = 1.5`,
    `b = 0.75`, `epsilon = 0.25`),
  * `src/validation/get_validation_samples.py` (`classify_by_language`).

Python floats are embedded as real numbers (exact arithmetic, `math.log`
becomes `Real.log`).  JSON-lines inputs are embedded as lists of
`Option Obj`, where `none` stands for a line on which `json.loads` raises
`JSONDecodeError`.  Pandas dataframes are embedded as a column-name list
plus rows of (index label, association list of named cells).
-/

/-! ## Generic association-list operations

Used both for JSON objects / Python dicts (insertion-ordered, assignment
overwrites in place, as in CPython) and, at cell level, for dataframe rows. -/

/-- Lookup of the first binding of key `n` (Python `d.get(n)` / `d[n]`). -/
def getVal {κ α : Type} [DecidableEq κ] : List (κ × α) → κ → Option α
  | [], _ => none
  | (k, v) :: rest, n => if k = n then some v else getVal rest n

/-- `d[n] = v` on an insertion-ordered dict: overwrite in place if the key
exists, otherwise append at the end. -/
def setKey {κ α : Type} [DecidableEq κ] : List (κ × α) → κ → α → List (κ × α)
  | [], n, v => [(n, v)]
  | (k, w) :: rest, n, v => if k = n then (n, v) :: rest else (k, w) :: setKey rest n v

/-- First-occurrence-preserving deduplication, as produced by Python
`list(dict.fromkeys(tokens))` and by `pandas.Series.unique`. -/
def dedupFirstAux {α : Type} [DecidableEq α] (seen : List α) : List α → List α
  | [] => []
  | x :: xs => if x ∈ seen then dedupFirstAux seen xs else x :: dedupFirstAux (x :: seen) xs

def dedupFirst {α : Type} [DecidableEq α] (l : List α) : List α := dedupFirstAux [] l

/-! ## JSON values

The records moved around by `merge_classifications.py` are parsed JSON
objects.  `JVal.num` carries a rational because JSON number literals are
decimal. -/

inductive JVal : Type where
  | null : JVal
  | bool (b : Bool) : JVal
  | num (q : ℚ) : JVal
  | str (s : String) : JVal
  | obj (fields : List (String × JVal)) : JVal

mutual

def jvalBeq : JVal → JVal → Bool
  | .null, .null => true
  | .bool a, .bool c => a == c
  | .num a, .num c => a == c
  | .str a, .str c => a == c
  | .obj a, .obj c => fieldsBeq a c
  | _, _ => false

def fieldsBeq : List (String × JVal) → List (String × JVal) → Bool
  | [], [] => true
  | (k, v) :: xs, (k2, v2) :: ys => k == k2 && jvalBeq v v2 && fieldsBeq xs ys
  | _, _ => false

end

mutual

theorem jvalBeq_iff : ∀ (a b : JVal), jvalBeq a b = true ↔ a = b
  | .null, b => by cases b <;> simp [jvalBeq]
  | .bool x, b => by cases b <;> simp [jvalBeq]
  | .num x, b => by cases b <;> simp [jvalBeq]
  | .str x, b => by cases b <;> simp [jvalBeq]
  | .obj fs, b => by
      cases b with
      | obj gs => simpa [jvalBeq] using fieldsBeq_iff fs gs
      | null => simp [jvalBeq]
      | bool c => simp [jvalBeq]
      | num c => simp [jvalBeq]
      | str c => simp [jvalBeq]

theorem fieldsBeq_iff : ∀ (xs ys : List (String × JVal)), fieldsBeq xs ys = true ↔ xs = ys
  | [], ys => by cases ys <;> simp [fieldsBeq]
  | (k, v) :: xs, [] => by simp [fieldsBeq]
  | (k, v) :: xs, (k2, v2) :: ys => by
      simp [fieldsBeq, Bool.and_eq_true, jvalBeq_iff v v2, fieldsBeq_iff xs ys, and_assoc]

end

instance : DecidableEq JVal := fun a b => decidable_of_iff _ (jvalBeq_iff a b)

/-- A parsed JSON object (a Python dict), insertion-ordered. -/
abbrev Obj := List (String × JVal)

/-- Python truthiness of a JSON value, as tested by `if uri:`. -/
def jTruthy : JVal → Bool
  | .null => false
  | .bool b => b
  | .num q => q != 0
  | .str s => s != ""
  | .obj fields => !fields.isEmpty

/-- `record.get(field)`: `None` (embedded as `JVal.null`) when absent. -/
def jGet (record : Obj) (field : String) : JVal :=
  (getVal record field).getD JVal.null

/-! ## `merge_classifications` (src/preprocess/merge_classifications.py)

The function streams two JSON-lines files.  It is embedded as a pure
function from the two parsed line lists (`none` = undecodable line, which
the source skips via `except json.JSONDecodeError: continue`) to the list
of written output records together with the `matched` / `unmatched`
counters that its summary prints. -/

/-- The classification payload stored per URI while loading the
classifications file. -/
def mkClassification (record : Obj) : Obj :=
  [("is_climate_or_energy", jGet record "is_climate_or_energy"),
   ("justification", jGet record "justification"),
   ("error", jGet record "error")]

/-- First pass: load all classifications into a dict keyed by the value of
`id_field`.  A record whose id is missing or falsy is skipped
(`if uri:`); later records overwrite earlier ones with the same key. -/
def loadClassifications (lines : List (Option Obj)) (idField : String) :
    List (JVal × Obj) :=
  lines.foldl
    (fun dict line =>
      match line with
      | none => dict
      | some record =>
        let uri := jGet record idField
        if jTruthy uri then setKey dict uri (mkClassification record) else dict)
    []

/-- The payload attached to an article with no loaded classification. -/
def notClassified : Obj :=
  [("is_climate_or_energy", JVal.null), ("justification", JVal.null),
   ("error", JVal.str "Not classified")]

/-- Second pass over the articles file: attach the matching classification
when `uri and uri in classifications`, else attach `notClassified`; write
every decodable article line; count matched and unmatched articles. -/
def mergeLoop (classifications : List (JVal × Obj)) (idField : String) :
    List (Option Obj) → List Obj × ℕ × ℕ
  | [] => ([], 0, 0)
  | none :: rest => mergeLoop classifications idField rest
  | some article :: rest =>
    let res := mergeLoop classifications idField rest
    let uri := jGet article idField
    match (if jTruthy uri then getVal classifications uri else none) with
    | some cls =>
      (setKey article "classification" (JVal.obj cls) :: res.1, res.2.1 + 1, res.2.2)
    | none =>
      (setKey article "classification" (JVal.obj notClassified) :: res.1,
       res.2.1, res.2.2 + 1)

/-- `merge_classifications(articles_file, classifications_file, output_file,
id_field)`: returns (output records in order, matched count, unmatched
count). -/
def merge_classifications (articleLines classLines : List (Option Obj))
    (idField : String) : List Obj × ℕ × ℕ :=
  mergeLoop (loadClassifications classLines idField) idField articleLines

/-! ## Tokenization (`BM25KeywordClassifier._preprocess_text`)

`str(text).lower().split()`: lowercase, then split on whitespace runs
discarding empty pieces.  Implemented over the character list so that it
evaluates by kernel reduction; `Char.toLower` covers the ASCII range of
Python `str.lower`, which is all this corpus uses.  `pd.isna`/`None`
inputs are handled at the call sites, where missing cells are filled with
the empty string before tokenizing. -/

def wordsAux (cur : List Char) : List Char → List (List Char)
  | [] => if cur.isEmpty then [] else [cur.reverse]
  | c :: cs =>
    if c.isWhitespace then
      (if cur.isEmpty then wordsAux [] cs else cur.reverse :: wordsAux [] cs)
    else wordsAux (c :: cur) cs

def tokenize (text : String) : List String :=
  (wordsAux [] (text.data.map Char.toLower)).map String.mk

/-! ## The `BM25Okapi` scorer (rank_bm25), as instantiated by
`keyword_classifier.py` with its default parameters
`k1 = 1.5`, `b = 0.75`, `epsilon = 0.25`.

A fitted instance is a function of the tokenized corpus, so the
statistics are expressed directly over `docs : List (List String)`.
Floats are embedded as reals; `math.log` is `Real.log`.  Python division
by zero raises where Lean returns `0`; the corpora in every theorem below
are nonempty, where the two agree. -/

noncomputable section

namespace BM25

def k1 : ℝ := 1.5

def b : ℝ := 0.75

def epsilonParam : ℝ := 0.25

/-- `corpus_size`. -/
def corpusSize (docs : List (List String)) : ℕ := docs.length

/-- `avgdl = num_doc / corpus_size` (total token count / document count). -/
def avgdl (docs : List (List String)) : ℝ :=
  ((docs.map List.length).sum : ℝ) / (docs.length : ℝ)

/-- `nd[w]`: the number of documents containing `w`. -/
def nd (docs : List (List String)) (w : String) : ℕ :=
  (docs.filter (fun d => w ∈ d)).length

/-- The key set of the `idf` dict: every word of the corpus, once. -/
def vocab (docs : List (List String)) : List String :=
  dedupFirst docs.flatten

/-- `idf = log(corpus_size - freq + 0.5) - log(freq + 0.5)`. -/
def idfRaw (docs : List (List String)) (w : String) : ℝ :=
  Real.log ((corpusSize docs : ℝ) - (nd docs w : ℝ) + 1/2)
    - Real.log ((nd docs w : ℝ) + 1/2)

/-- `average_idf = idf_sum / len(self.idf)`. -/
def averageIdf (docs : List (List String)) : ℝ :=
  ((vocab docs).map (idfRaw docs)).sum / ((vocab docs).length : ℝ)

/-- `eps = self.epsilon * self.average_idf`. -/
def epsFloor (docs : List (List String)) : ℝ :=
  epsilonParam * averageIdf docs

/-- The final idf table: words with negative raw idf are floored to
`eps`. -/
def idf (docs : List (List String)) (w : String) : ℝ :=
  if idfRaw docs w < 0 then epsFloor docs else idfRaw docs w

/-- `self.idf.get(q) or 0` in `get_scores` (an absent query term
contributes weight `0`; a stored value of exactly `0.0` also falls
through `or` to `0`, the same real number). -/
def idfOrZero (docs : List (List String)) (w : String) : ℝ :=
  if w ∈ vocab docs then idf docs w else 0

/-- One query term's contribution to one document in `get_scores`:
`idf * (tf * (k1 + 1) / (tf + k1 * (1 - b + b * doc_len / avgdl)))`. -/
def termScore (idfv : ℝ) (tf : ℕ) (dl : ℕ) (avg : ℝ) : ℝ :=
  idfv * ((tf : ℝ) * (k1 + 1) / ((tf : ℝ) + k1 * (1 - b + b * (dl : ℝ) / avg)))

/-- A document's total score for a query token list; `tf` is
`doc.get(q) or 0`, the within-document count of the term. -/
def docScore (docs : List (List String)) (query : List String)
    (d : List String) : ℝ :=
  (query.map (fun q =>
    termScore (idfOrZero docs q) (List.count q d) d.length (avgdl docs))).sum

/-- `get_scores(query)`: one score per corpus document, in order. -/
def getScores (docs : List (List String)) (query : List String) : List ℝ :=
  docs.map (docScore docs query)

end BM25

/-! ## `BM25KeywordClassifier` (src/classify/keyword_classifier.py) -/

/-- The classifier: the keyword list plus `self.bm25`, the fitted state,
embedded as the tokenized corpus the `BM25Okapi` instance was built from
(`none` before `fit` is called). -/
structure BM25KeywordClassifier where
  keywords : List String
  bm25 : Option (List (List String))

namespace BM25KeywordClassifier

/-- `__init__(keywords)`: stores the keywords, `self.bm25 = None`. -/
def init (keywords : List String) : BM25KeywordClassifier :=
  { keywords := keywords, bm25 := none }

/-- `fit(corpus)`: tokenize every document and build the BM25 statistics
over that corpus. -/
def fit (c : BM25KeywordClassifier) (corpus : List String) : BM25KeywordClassifier :=
  { keywords := c.keywords, bm25 := some (corpus.map tokenize) }

/-- The message of the `ValueError` raised by `score` before `fit` —
the specification's NotFittedError. -/
def notFittedMsg : String := "BM25 model not fitted. Call fit() first."

/-- The count accumulated by the naive single-document loop of `score`:
for every keyword token present in the document, add the document count
of that token.  Each increment is a nonnegative integer, so the float
accumulator of the source holds exactly this natural number. -/
def naiveKeywordCount (keywords : List String) (docTokens : List String) : ℕ :=
  (keywords.map (fun keyword =>
    ((tokenize keyword).map (fun tok =>
      if tok ∈ docTokens then List.count tok docTokens else 0)).sum)).sum

/-- `score(text)`: raises when unfitted; otherwise counts occurrences of
keyword tokens in the document (the naive single-document path; note that
it never consults the fitted corpus statistics). -/
def score (c : BM25KeywordClassifier) (text : String) : Except String ℝ :=
  match c.bm25 with
  | none => .error notFittedMsg
  | some _ => .ok ((naiveKeywordCount c.keywords (tokenize text) : ℕ) : ℝ)

end BM25KeywordClassifier

/-- The deduplicated query-token list of `classify_dataframe`:
tokenize every keyword, flatten, `list(dict.fromkeys(query_tokens))`. -/
def queryTokens (keywords : List String) : List String :=
  dedupFirst (keywords.map tokenize).flatten

/-- The batch scoring path: fit `BM25Okapi` on the tokenized corpus and
score every document against the deduplicated query tokens. -/
def bm25Scores (keywords : List String) (corpus : List String) : List ℝ :=
  BM25.getScores (corpus.map tokenize) (queryTokens keywords)

/-! ## Dataframes -/

/-- One dataframe cell; `na` is a missing value (NaN).  The text columns
of this pipeline hold strings or NaN, so no numeric-to-string rendering
is needed when a cell feeds tokenization. -/
inductive Cell : Type where
  | na : Cell
  | str (s : String) : Cell
  | real (x : ℝ) : Cell
  | bool (b : Bool) : Cell

/-- A pandas dataframe: ordered column names, plus rows carrying an index
label and named cells. -/
structure DFrame where
  cols : List String
  rows : List (ℕ × List (String × Cell))

/-- `fillna('')` followed by text extraction for one corpus cell. -/
def cellText : Cell → String
  | .na => ""
  | .str s => s
  | .real _ => ""
  | .bool _ => ""

/-- Column read: per row, the cell stored under `name`. -/
def DFrame.col (df : DFrame) (name : String) : List Cell :=
  df.rows.map (fun r => (getVal r.2 name).getD Cell.na)

/-- Column assignment `df[name] = vals`: overwrites an existing column in
place, otherwise appends it at the end. -/
def DFrame.setCol (df : DFrame) (name : String) (vals : List Cell) : DFrame :=
  { cols := if name ∈ df.cols then df.cols else df.cols ++ [name],
    rows := List.zipWith (fun r v => (r.1, setKey r.2 name v)) df.rows vals }

/-- Scalar column assignment `df[name] = v` (broadcast to every row). -/
def DFrame.setColScalar (df : DFrame) (name : String) (v : Cell) : DFrame :=
  df.setCol name (df.rows.map (fun _ => v))

/-- pandas `series >= threshold` on one float cell (NaN compares `False`). -/
def cellGe (c : Cell) (t : ℝ) : Bool :=
  match c with
  | .real x => decide (t ≤ x)
  | _ => false

/-- The corpus of a dataframe:
`df_copy[text_field].fillna('').tolist()`. -/
def corpusOf (df : DFrame) (textField : String) : List String :=
  (df.col textField).map cellText

/-- `classify_dataframe(df, text_field, threshold, score_column,
classification_column)`: copy the frame, require the text field, fit on
the corpus, compute BM25 scores for the deduplicated query tokens, append
the score column, then append the classification column computed from the
just-assigned score column compared (inclusively) against the threshold.
Returns the fitted scorer state together with the augmented copy. -/
def classify_dataframe (c : BM25KeywordClassifier) (df : DFrame)
    (textField : String) (threshold : ℝ) (scoreCol classCol : String) :
    Except String (BM25KeywordClassifier × DFrame) :=
  let dfCopy := df
  if textField ∈ dfCopy.cols then
    let corpus := corpusOf dfCopy textField
    let fitted := c.fit corpus
    let scores := bm25Scores c.keywords corpus
    let df1 := dfCopy.setCol scoreCol (scores.map Cell.real)
    let df2 := df1.setCol classCol
      ((df1.col scoreCol).map (fun cl => Cell.bool (cellGe cl threshold)))
    .ok (fitted, df2)
  else
    .error ("Text field " ++ textField ++ " not found in dataframe")

/-- `classify_with_keywords(df, text_field, keywords, threshold, ...)`:
build a fresh classifier on the keywords and classify the frame. -/
def classify_with_keywords (df : DFrame) (textField : String)
    (keywords : List String) (threshold : ℝ) (scoreCol classCol : String) :
    Except String DFrame :=
  (classify_dataframe (BM25KeywordClassifier.init keywords) df textField
    threshold scoreCol classCol).map (fun p => p.2)

/-! ## `classify_by_language` (src/validation/get_validation_samples.py) -/

/-- `df[lang_column] == lang` on one cell: only a string cell can equal
the language string; NaN compares unequal. -/
def cellEqStr (c : Cell) (l : String) : Bool :=
  match c with
  | .str s => s == l
  | _ => false

/-- `isna()` on one cell. -/
def cellIsNa : Cell → Bool
  | .na => true
  | _ => false

/-- The value of a non-missing language cell.  The language column of
this pipeline holds strings or NaN, which is also assumed by the source
(`load_keywords(lang, ...)` indexes a JSON dict with the value). -/
def cellStr : Cell → Option String
  | .str s => some s
  | _ => none

/-- Row filtering `df[mask]` (column list unchanged, order preserved). -/
def DFrame.filterRows (df : DFrame) (p : ℕ × List (String × Cell) → Bool) : DFrame :=
  { cols := df.cols, rows := df.rows.filter p }

/-- The language cell of a row. -/
def langCell (langCol : String) (r : ℕ × List (String × Cell)) : Cell :=
  (getVal r.2 langCol).getD Cell.na

/-- The per-language loop of `classify_by_language`: for each language in
order of first appearance, filter that language's rows, then either
default the two new columns (`score = 0.0`, classification `False`) when
the language has no keywords, or classify with the language keywords. -/
def classifyGroups (df : DFrame) (textField : String) (threshold : ℝ)
    (langCol : String) (kwOf : String → List String)
    (scoreCol classCol : String) : List String → Except String (List DFrame)
  | [] => .ok []
  | l :: ls =>
    let langDf := df.filterRows (fun r => cellEqStr (langCell langCol r) l)
    match
      (if kwOf l = [] then
        Except.ok ((langDf.setColScalar scoreCol (Cell.real 0)).setColScalar
          classCol (Cell.bool false))
      else
        classify_with_keywords langDf textField (kwOf l) threshold scoreCol classCol :
        Except String DFrame) with
    | .error e => .error e
    | .ok classified =>
      match classifyGroups df textField threshold langCol kwOf scoreCol classCol ls with
      | .error e => .error e
      | .ok rest => .ok (classified :: rest)

/-- `pd.concat(dfs, ignore_index=False)` for frames sharing one column
list, as all frames built inside `classify_by_language` do. -/
def dfConcat (dfs : List DFrame) : DFrame :=
  { cols := ((dfs.head?).map DFrame.cols).getD [],
    rows := (dfs.map DFrame.rows).flatten }

/-- `df_combined.sort_index()`. -/
def sortIndex (df : DFrame) : DFrame :=
  { cols := df.cols, rows := df.rows.mergeSort (fun a r => a.1 ≤ r.1) }

/-- `classify_by_language(df, text_field, threshold, lang_column, ...)`.
The keywords file is embedded as the lookup `kwOf` (the result of
`load_keywords(lang, keywords_file)` for each language).  Rows whose
language is missing are given score `0.0` and classification `False` and
appended after the language groups; the concatenation is then sorted by
index.  `pd.concat` of an empty frame list raises, embedded as the error
branch. -/
def classify_by_language (df : DFrame) (textField : String) (threshold : ℝ)
    (langCol : String) (kwOf : String → List String)
    (scoreCol classCol : String) : Except String DFrame :=
  if langCol ∈ df.cols then
    let languages := dedupFirst (df.rows.filterMap (fun r => cellStr (langCell langCol r)))
    match classifyGroups df textField threshold langCol kwOf scoreCol classCol languages with
    | .error e => .error e
    | .ok groups =>
      let missing := df.filterRows (fun r => cellIsNa (langCell langCol r))
      let allDfs :=
        if missing.rows.isEmpty then groups
        else groups ++ [(missing.setColScalar scoreCol (Cell.real 0)).setColScalar
          classCol (Cell.bool false)]
      if allDfs.isEmpty then .error "No objects to concatenate"
      else .ok (sortIndex (dfConcat allDfs))
  else
    .error ("Language column " ++ langCol ++ " not found in dataframe")

end

/-! ## Concrete instances used by the theorems below -/

/-- The two-document corpus of end-to-end scenario 1. -/
def c3corpus : List String := ["climate change is real", "sports news today"]

/-- The keyword set of end-to-end scenario 1. -/
def c3keywords : List String := ["climate change", "global warming"]

/-- Scenario 1 as a dataframe with a `text` column. -/
def c3df : DFrame :=
  { cols := ["text"],
    rows := [(0, [("text", Cell.str "climate change is real")]),
             (1, [("text", Cell.str "sports news today")])] }

/-- A two-document tokenized corpus in which the term `a` occurs in both
documents, so its raw idf is negative and gets floored to
`eps = 0.25 * average_idf < 0`. -/
def c6corpus : List String := ["a b", "a c"]

def c6docs : List (List String) := c6corpus.map tokenize

/-- An article record carrying a lexical (BM25) verdict `False`. -/
def exArticleA : Obj :=
  [("uri", JVal.str "A"), ("bm25_classification", JVal.bool false)]

/-- A non-error LLM verdict `True` for the same document. -/
def exVerdictA : Obj :=
  [("uri", JVal.str "A"), ("is_climate_or_energy", JVal.bool true),
   ("justification", JVal.str "llm judged it relevant"), ("error", JVal.null)]

/-- The record `merge_classifications` writes for `exArticleA` given
`exVerdictA`. -/
def exMergedA : Obj :=
  [("uri", JVal.str "A"), ("bm25_classification", JVal.bool false),
   ("classification", JVal.obj
     [("is_climate_or_energy", JVal.bool true),
      ("justification", JVal.str "llm judged it relevant"),
      ("error", JVal.null)])]

/-- An article for which no source supplies a verdict. -/
def exArticleB : Obj := [("uri", JVal.str "B")]

/-- A verdict record with no `uri` field at all (malformed). -/
def exMalformed : Obj := [("is_climate_or_energy", JVal.bool true)]

/-- A dataframe for `classify_by_language`: one English row, one row with
a missing language, one row in a language without keywords. -/
def c10df : DFrame :=
  { cols := ["lang", "text"],
    rows := [(0, [("lang", Cell.str "eng"), ("text", Cell.str "climate change is real")]),
             (1, [("lang", Cell.na), ("text", Cell.str "sports news today")]),
             (2, [("lang", Cell.str "xyz"), ("text", Cell.str "irrelevant text")])] }

/-- A keyword table with English keywords only. -/
def c10kwOf : String → List String :=
  fun l => if l = "eng" then ["climate change"] else []

/-! ## Helper lemmas: association lists and deduplication -/

theorem getVal_setKey_self {κ α : Type} [DecidableEq κ] (n : κ) (v : α) :
    ∀ r : List (κ × α), getVal (setKey r n v) n = some v := by
  intro r
  induction r with
  | nil => simp [setKey, getVal]
  | cons p rest ih =>
    obtain ⟨k, w⟩ := p
    by_cases h : k = n
    · simp [setKey, h, getVal]
    · simp [setKey, h, getVal, ih]

theorem getVal_setKey_ne {κ α : Type} [DecidableEq κ] {m n : κ} (v : α)
    (hmn : m ≠ n) : ∀ r : List (κ × α), getVal (setKey r n v) m = getVal r m := by
  intro r
  induction r with
  | nil => simp [setKey, getVal, Ne.symm hmn]
  | cons p rest ih =>
    obtain ⟨k, w⟩ := p
    by_cases h : k = n
    · subst h
      simp [setKey, getVal, Ne.symm hmn]
    · by_cases hkm : k = m
      · simp [setKey, h, getVal, hkm, hmn]
      · simp [setKey, h, getVal, hkm, ih]

theorem mem_dedupFirstAux {α : Type} [DecidableEq α] (a : α) :
    ∀ (l seen : List α), a ∈ dedupFirstAux seen l ↔ a ∈ l ∧ a ∉ seen := by
  intro l
  induction l with
  | nil => simp [dedupFirstAux]
  | cons x xs ih =>
    intro seen
    simp only [dedupFirstAux]
    by_cases hx : x ∈ seen
    · rw [if_pos hx, ih]
      constructor
      · rintro ⟨h1, h2⟩; exact ⟨List.mem_cons_of_mem _ h1, h2⟩
      · rintro ⟨h1, h2⟩
        rcases List.mem_cons.mp h1 with rfl | h1
        · exact absurd hx h2
        · exact ⟨h1, h2⟩
    · rw [if_neg hx]
      simp only [List.mem_cons, ih]
      by_cases hax : a = x
      · subst hax; simp [hx]
      · simp [hax]

theorem mem_dedupFirst {α : Type} [DecidableEq α] (a : α) (l : List α) :
    a ∈ dedupFirst l ↔ a ∈ l := by
  simp [dedupFirst, mem_dedupFirstAux]

theorem nodup_dedupFirstAux {α : Type} [DecidableEq α] :
    ∀ (l seen : List α), (dedupFirstAux seen l).Nodup := by
  intro l
  induction l with
  | nil => simp [dedupFirstAux]
  | cons x xs ih =>
    intro seen
    simp only [dedupFirstAux]
    by_cases hx : x ∈ seen
    · rw [if_pos hx]; exact ih seen
    · rw [if_neg hx]
      refine List.nodup_cons.mpr ⟨?_, ih (x :: seen)⟩
      rw [mem_dedupFirstAux]
      rintro ⟨-, h2⟩
      exact h2 (List.mem_cons_self _ _)

theorem nodup_dedupFirst {α : Type} [DecidableEq α] (l : List α) : (dedupFirst l).Nodup :=
  nodup_dedupFirstAux l []

/-! ## Helper lemmas: BM25 numerics -/

namespace BM25

theorem avgdl_nonneg (docs : List (List String)) : 0 ≤ avgdl docs := by
  unfold avgdl
  apply div_nonneg _ (Nat.cast_nonneg _)
  positivity

theorem idfRaw_eq_zero (docs : List (List String)) (w : String)
    (h : corpusSize docs = 2 * nd docs w) : idfRaw docs w = 0 := by
  unfold idfRaw
  have hc : (corpusSize docs : ℝ) = 2 * (nd docs w : ℝ) := by exact_mod_cast h
  rw [hc]
  have h2 : 2 * (nd docs w : ℝ) - (nd docs w : ℝ) + 1/2 = (nd docs w : ℝ) + 1/2 := by ring
  rw [h2, sub_self]

theorem idfOrZero_eq_zero_of_half (docs : List (List String)) (w : String)
    (h : corpusSize docs = 2 * nd docs w) : idfOrZero docs w = 0 := by
  unfold idfOrZero idf
  rw [idfRaw_eq_zero docs w h]
  simp

theorem idfOrZero_of_not_mem (docs : List (List String)) (w : String)
    (h : w ∉ vocab docs) : idfOrZero docs w = 0 := by
  unfold idfOrZero
  rw [if_neg h]

theorem termScore_zero_idf (tf dl : ℕ) (avg : ℝ) : termScore 0 tf dl avg = 0 := by
  unfold termScore
  rw [zero_mul]

theorem docScore_eq_zero (docs : List (List String)) (query : List String)
    (d : List String) (h : ∀ q ∈ query, idfOrZero docs q = 0) :
    docScore docs query d = 0 := by
  unfold docScore
  apply List.sum_eq_zero
  intro x hx
  rcases List.mem_map.mp hx with ⟨q, hq, rfl⟩
  rw [h q hq, termScore_zero_idf]

/-- Monotonicity of one term contribution in the term frequency, for a
nonnegative idf weight. -/
theorem termScore_mono (idfv : ℝ) (tf tf2 dl : ℕ) (avg : ℝ)
    (h0 : 0 ≤ idfv) (havg : 0 ≤ avg) (htf : tf ≤ tf2) :
    termScore idfv tf dl avg ≤ termScore idfv tf2 dl avg := by
  unfold termScore k1 b
  apply mul_le_mul_of_nonneg_left _ h0
  have hK : (0:ℝ) < 1.5 * (1 - 0.75 + 0.75 * (dl : ℝ) / avg) := by
    have hd : (0:ℝ) ≤ 0.75 * (dl : ℝ) / avg := by positivity
    nlinarith
  have h1 : (0:ℝ) < (tf : ℝ) + 1.5 * (1 - 0.75 + 0.75 * (dl : ℝ) / avg) := by
    have := Nat.cast_nonneg (α := ℝ) tf
    nlinarith
  have h2 : (0:ℝ) < (tf2 : ℝ) + 1.5 * (1 - 0.75 + 0.75 * (dl : ℝ) / avg) := by
    have := Nat.cast_nonneg (α := ℝ) tf2
    nlinarith
  rw [div_le_div_iff₀ h1 h2]
  have hc : (tf : ℝ) ≤ (tf2 : ℝ) := Nat.cast_le.mpr htf
  nlinarith [mul_le_mul_of_nonneg_right hc hK.le]

end BM25

/-- Both scenario-1 documents receive BM25 score exactly `0`: each of the
four query tokens either occurs in exactly half (one) of the two corpus
documents, making its idf `log(1.5) - log(1.5) = 0`, or does not occur at
all, contributing weight `0`. -/
theorem c3_scores : bm25Scores c3keywords c3corpus = [0, 0] := by
  have hq : ∀ q ∈ queryTokens c3keywords, BM25.idfOrZero (c3corpus.map tokenize) q = 0 := by
    intro q hqmem
    rw [show queryTokens c3keywords = ["climate", "change", "global", "warming"] from by decide]
      at hqmem
    fin_cases hqmem
    · exact BM25.idfOrZero_eq_zero_of_half _ _ (by decide)
    · exact BM25.idfOrZero_eq_zero_of_half _ _ (by decide)
    · exact BM25.idfOrZero_of_not_mem _ _ (by decide)
    · exact BM25.idfOrZero_of_not_mem _ _ (by decide)
  have hq2 : ∀ q ∈ queryTokens c3keywords,
      BM25.idfOrZero [tokenize "climate change is real", tokenize "sports news today"] q = 0 :=
    hq
  unfold bm25Scores BM25.getScores
  rw [show c3corpus.map tokenize =
        [tokenize "climate change is real", tokenize "sports news today"] from rfl]
  simp only [List.map_cons, List.map_nil]
  rw [BM25.docScore_eq_zero _ _ _ hq2, BM25.docScore_eq_zero _ _ _ hq2]

theorem c6_idfRaw_a : BM25.idfRaw c6docs "a" = Real.log (1/2) - Real.log (5/2) := by
  unfold BM25.idfRaw
  rw [show BM25.nd c6docs "a" = 2 from by decide,
      show BM25.corpusSize c6docs = 2 from by decide]
  norm_num

/-- The epsilon idf floor of `c6docs` is negative: the only nonzero raw
idf is that of `a`, which is `log(1/2) - log(5/2) < 0`, so the average
idf and hence `eps = 0.25 * average_idf` are negative. -/
theorem c6_eps_neg : BM25.epsFloor c6docs < 0 := by
  have hlt : Real.log (1/2) - Real.log (5/2) < 0 := by
    rw [sub_neg]
    exact Real.log_lt_log (by norm_num) (by norm_num)
  have havg : BM25.averageIdf c6docs = (Real.log (1/2) - Real.log (5/2)) / 3 := by
    unfold BM25.averageIdf
    rw [show BM25.vocab c6docs = ["a", "b", "c"] from by decide]
    simp only [List.map_cons, List.map_nil, List.sum_cons, List.sum_nil, List.length_cons,
      List.length_nil]
    rw [c6_idfRaw_a,
        BM25.idfRaw_eq_zero c6docs "b" (by decide),
        BM25.idfRaw_eq_zero c6docs "c" (by decide)]
    norm_num
  unfold BM25.epsFloor BM25.epsilonParam
  rw [havg]
  have h3 : (Real.log (1/2) - Real.log (5/2)) / 3 < 0 :=
    div_neg_of_neg_of_pos hlt (by norm_num)
  nlinarith

/-- The floored idf weight of the corpus-frequent term `a`. -/
theorem c6_idfOrZero_a : BM25.idfOrZero c6docs "a" = BM25.epsFloor c6docs := by
  unfold BM25.idfOrZero BM25.idf
  rw [if_pos (show "a" ∈ BM25.vocab c6docs from by decide),
      if_pos (show BM25.idfRaw c6docs "a" < 0 from by
        rw [c6_idfRaw_a, sub_neg]
        exact Real.log_lt_log (by norm_num) (by norm_num))]

theorem c6_avgdl : BM25.avgdl c6docs = 2 := by
  unfold BM25.avgdl
  rw [show c6docs.map List.length = [2, 2] from by decide,
      show c6docs.length = 2 from by decide]
  norm_num

/-! ## Helper lemmas: dataframe columns and `classify_dataframe` -/

theorem col_setKey_aux (name : String) :
    ∀ (rows : List (ℕ × List (String × Cell))) (vals : List Cell),
      vals.length = rows.length →
      (List.zipWith (fun r v => (r.1, setKey r.2 name v)) rows vals).map
        (fun r => (getVal r.2 name).getD Cell.na) = vals := by
  intro rows
  induction rows with
  | nil =>
    intro vals h
    rw [List.length_nil, List.length_eq_zero] at h
    simp [h]
  | cons r rs ih =>
    intro vals h
    cases vals with
    | nil => simp at h
    | cons v vs =>
      simp only [List.zipWith_cons_cons, List.map_cons, getVal_setKey_self, Option.getD_some]
      rw [ih vs (by simpa using h)]

theorem DFrame.col_setCol (df : DFrame) (name : String) (vals : List Cell)
    (h : vals.length = df.rows.length) : (df.setCol name vals).col name = vals := by
  unfold DFrame.col DFrame.setCol
  exact col_setKey_aux name df.rows vals h

theorem col_setKey_ne_aux (name other : String) (hne : other ≠ name) :
    ∀ (rows : List (ℕ × List (String × Cell))) (vals : List Cell),
      vals.length = rows.length →
      (List.zipWith (fun r v => (r.1, setKey r.2 name v)) rows vals).map
        (fun r => (getVal r.2 other).getD Cell.na) =
      rows.map (fun r => (getVal r.2 other).getD Cell.na) := by
  intro rows
  induction rows with
  | nil => intro vals h; simp
  | cons r rs ih =>
    intro vals h
    cases vals with
    | nil => simp at h
    | cons v vs =>
      simp only [List.zipWith_cons_cons, List.map_cons]
      rw [getVal_setKey_ne _ hne, ih vs (by simpa using h)]

theorem DFrame.col_setCol_ne (df : DFrame) (name other : String) (vals : List Cell)
    (hne : other ≠ name) (h : vals.length = df.rows.length) :
    (df.setCol name vals).col other = df.col other := by
  unfold DFrame.col DFrame.setCol
  exact col_setKey_ne_aux name other hne df.rows vals h

theorem rows_fst_zipWith_aux (name : String) :
    ∀ (rows : List (ℕ × List (String × Cell))) (vals : List Cell),
      vals.length = rows.length →
      (List.zipWith (fun r v => (r.1, setKey r.2 name v)) rows vals).map Prod.fst =
        rows.map Prod.fst := by
  intro rows
  induction rows with
  | nil => intro vals h; simp
  | cons r rs ih =>
    intro vals h
    cases vals with
    | nil => simp at h
    | cons v vs =>
      simp only [List.zipWith_cons_cons, List.map_cons]
      rw [ih vs (by simpa using h)]

theorem DFrame.rows_fst_setCol (df : DFrame) (name : String) (vals : List Cell)
    (h : vals.length = df.rows.length) :
    (df.setCol name vals).rows.map Prod.fst = df.rows.map Prod.fst := by
  unfold DFrame.setCol
  exact rows_fst_zipWith_aux name df.rows vals h

theorem DFrame.length_col (df : DFrame) (name : String) :
    (df.col name).length = df.rows.length := by
  unfold DFrame.col
  simp

theorem length_getScores (docs : List (List String)) (query : List String) :
    (BM25.getScores docs query).length = docs.length := by
  unfold BM25.getScores
  simp

theorem length_bm25Scores (keywords : List String) (corpus : List String) :
    (bm25Scores keywords corpus).length = corpus.length := by
  unfold bm25Scores
  rw [length_getScores]
  simp

theorem length_corpusOf (df : DFrame) (textField : String) :
    (corpusOf df textField).length = df.rows.length := by
  unfold corpusOf
  rw [List.length_map, DFrame.length_col]

theorem cellGe_real (x t : ℝ) : cellGe (Cell.real x) t = decide (t ≤ x) := rfl

/-- The success case of `classify_dataframe`, fully unfolded. -/
theorem classify_dataframe_ok (c : BM25KeywordClassifier) (df : DFrame) (textField : String)
    (t : ℝ) (sCol cCol : String) (h : textField ∈ df.cols) :
    classify_dataframe c df textField t sCol cCol =
      Except.ok (c.fit (corpusOf df textField),
        (df.setCol sCol ((bm25Scores c.keywords (corpusOf df textField)).map Cell.real)).setCol
          cCol
          (((df.setCol sCol
              ((bm25Scores c.keywords (corpusOf df textField)).map Cell.real)).col sCol).map
            (fun cl => Cell.bool (cellGe cl t)))) := by
  unfold classify_dataframe
  simp only [h, if_true]

/-- The run of end-to-end scenario 1 on the code: both documents come out
with classification `False`. -/
theorem c3_run : ∃ out,
    classify_with_keywords c3df "text" c3keywords 1 "bm25_score" "bm25_classification"
      = Except.ok out ∧
    out.col "bm25_classification" = [Cell.bool false, Cell.bool false] := by
  unfold classify_with_keywords
  rw [classify_dataframe_ok _ _ _ _ _ _ (by decide : "text" ∈ c3df.cols)]
  have hcorp : corpusOf c3df "text" = c3corpus := by decide
  rw [show (BM25KeywordClassifier.init c3keywords).keywords = c3keywords from rfl,
      hcorp, c3_scores]
  refine ⟨_, rfl, ?_⟩
  have hlen1 : (([0, 0] : List ℝ).map Cell.real).length = c3df.rows.length := by decide
  have hlen2 : (((c3df.setCol "bm25_score" (([0, 0] : List ℝ).map Cell.real)).col
        "bm25_score").map (fun cl => Cell.bool (cellGe cl 1))).length
      = (c3df.setCol "bm25_score" (([0, 0] : List ℝ).map Cell.real)).rows.length := by
    rw [List.length_map, DFrame.length_col]
  rw [DFrame.col_setCol _ _ _ hlen2, DFrame.col_setCol _ _ _ hlen1]
  simp only [List.map_cons, List.map_nil, cellGe_real]
  rw [show decide ((1:ℝ) ≤ 0) = false from by rw [decide_eq_false_iff_not]; norm_num]

/-! ## Claims C1, C2, C8: the classification merge -/

/-- Claim C1 (amended).  For an article with a truthy document id and an
LLM verdict loaded under the same id, `merge_classifications` emits
exactly one merged record for the article — a disagreeing lexical verdict
never causes exclusion — and the attached classification carries the LLM
label (LLM precedence).  However, the merged record carries no `conflict`
field at all: the `conflict` lookup on the output record is exactly the
lookup on the input article, so disagreement between the lexical field
and the LLM verdict is not recorded. -/
theorem claim_C1_amended (a c : Obj) (u : JVal) (idField : String)
    (ha : jGet a idField = u) (hu : jTruthy u = true)
    (hc : jGet c idField = u) :
    merge_classifications [some a] [some c] idField =
      ([setKey a "classification" (JVal.obj (mkClassification c))], 1, 0) ∧
    getVal (setKey a "classification" (JVal.obj (mkClassification c))) "conflict"
      = getVal a "conflict" ∧
    jGet (mkClassification c) "is_climate_or_energy" = jGet c "is_climate_or_energy" := by
  refine ⟨?_, ?_, ?_⟩
  · unfold merge_classifications loadClassifications
    simp only [List.foldl_cons, List.foldl_nil, hc, hu, if_true]
    unfold mergeLoop
    simp [ha, hu, setKey, getVal, mergeLoop]
  · exact getVal_setKey_ne _ (by decide) _
  · simp [mkClassification, jGet, getVal]

/-- Claim C1 witness: the amended theorem applied to the concrete
disagreeing pair `exArticleA` (lexical `False`) / `exVerdictA`
(non-error LLM `True`). -/
theorem claim_C1_witness :
    merge_classifications [some exArticleA] [some exVerdictA] "uri" =
      ([setKey exArticleA "classification" (JVal.obj (mkClassification exVerdictA))], 1, 0) ∧
    getVal (setKey exArticleA "classification" (JVal.obj (mkClassification exVerdictA)))
      "conflict" = getVal exArticleA "conflict" ∧
    jGet (mkClassification exVerdictA) "is_climate_or_energy"
      = jGet exVerdictA "is_climate_or_energy" :=
  claim_C1_amended exArticleA exVerdictA (JVal.str "A") "uri"
    (by decide) (by decide) (by decide)

/-- Claim C1 counterexample.  Document `A` has a lexical verdict `False`
(`bm25_classification` on the article) and a non-error LLM verdict `True`
— the disagreeing pair of the claim.  The merged record is `exMergedA`:
its final label is the LLM label `True` and it is not excluded, but it
has no `conflict` field, so `conflict = true` is never set, refuting the
claim as stated. -/
theorem claim_C1_counterexample :
    merge_classifications [some exArticleA] [some exVerdictA] "uri" = ([exMergedA], 1, 0) ∧
    getVal exMergedA "conflict" = none ∧
    jGet exArticleA "bm25_classification" = JVal.bool false ∧
    jGet exMergedA "classification" =
      JVal.obj [("is_climate_or_energy", JVal.bool true),
        ("justification", JVal.str "llm judged it relevant"), ("error", JVal.null)] := by
  refine ⟨by decide, by decide, by decide, by decide⟩

/-- Claim C2 (amended).  An article whose id matches no loaded
classification is NOT excluded from the merged output: it is emitted with
the `notClassified` payload `{is_climate_or_energy: null, justification:
null, error: "Not classified"}` and counted as unmatched.  Absence of a
verdict is therefore marked by a null label and an error string on an
emitted record, not by absence of the record. -/
theorem claim_C2_amended (a : Obj) (u : JVal) (idField : String)
    (cls : List (Option Obj)) (ha : jGet a idField = u)
    (hnone : (if jTruthy u then getVal (loadClassifications cls idField) u else none)
      = none) :
    merge_classifications [some a] cls idField =
      ([setKey a "classification" (JVal.obj notClassified)], 0, 1) ∧
    getVal (setKey a "classification" (JVal.obj notClassified)) "classification"
      = some (JVal.obj notClassified) := by
  constructor
  · unfold merge_classifications mergeLoop
    simp [ha, hnone, mergeLoop]
  · exact getVal_setKey_self _ _ _

/-- Claim C2 witness: the amended theorem applied to article `B` with an
empty classifications file. -/
theorem claim_C2_witness :
    merge_classifications [some exArticleB] [] "uri" =
      ([setKey exArticleB "classification" (JVal.obj notClassified)], 0, 1) ∧
    getVal (setKey exArticleB "classification" (JVal.obj notClassified)) "classification"
      = some (JVal.obj notClassified) :=
  claim_C2_amended exArticleB (JVal.str "B") "uri" [] (by decide) (by decide)

/-- Claim C2 counterexample.  Article `B` has no verdict from any source
(the classifications input is empty), yet the merge emits a record for it
— with a null label and `error = "Not classified"` — rather than emitting
no record, refuting the claim as stated. -/
theorem claim_C2_counterexample :
    merge_classifications [some exArticleB] [] "uri" =
      ([[("uri", JVal.str "B"), ("classification", JVal.obj notClassified)]], 0, 1) ∧
    (merge_classifications [some exArticleB] [] "uri").1.length = 1 := by
  refine ⟨by decide, by decide⟩

/-- Claim C8 (amended).  A verdict record whose id field is missing or
falsy is skipped without aborting the merge of the remaining records —
but its count is NOT reported: the entire observable result of the merge
(output records, matched count, unmatched count) is identical to the run
without the malformed record, so no skipped-record count exists in the
summary. -/
theorem claim_C8_amended (arts cls : List (Option Obj)) (r : Obj) (idField : String)
    (hr : jTruthy (jGet r idField) = false) :
    merge_classifications arts (some r :: cls) idField =
      merge_classifications arts cls idField := by
  unfold merge_classifications loadClassifications
  simp [List.foldl_cons, hr]

/-- Claim C8 witness: the amended theorem applied to the concrete
malformed record `exMalformed` (no `uri` field). -/
theorem claim_C8_witness :
    merge_classifications [some exArticleA] [some exMalformed, some exVerdictA] "uri" =
      merge_classifications [some exArticleA] [some exVerdictA] "uri" :=
  claim_C8_amended [some exArticleA] [some exVerdictA] exMalformed "uri" (by decide)

/-- Claim C8 counterexample.  With the malformed record `exMalformed`
present, the merge still matches the remaining verdict (`matched = 1`,
non-fatal skipping), but every component of the result equals the run
without the malformed record — in particular no component of the summary
reports the one skipped record, refuting the reporting half of the
claim. -/
theorem claim_C8_counterexample :
    merge_classifications [some exArticleA] [some exMalformed, some exVerdictA] "uri" =
      merge_classifications [some exArticleA] [some exVerdictA] "uri" ∧
    (merge_classifications [some exArticleA] [some exMalformed, some exVerdictA] "uri").2.1
      = 1 ∧
    (merge_classifications [some exArticleA] [some exMalformed, some exVerdictA] "uri").2.2
      = 0 := by
  refine ⟨by decide, by decide, by decide⟩

/-! ## Claims C3, C4, C5, C6, C7, C9: the BM25 classifier -/

/-- Claim C3 (amended).  Running the classifier on the two-document
corpus with keywords `["climate change", "global warming"]` and inclusive
threshold `1.0` classifies BOTH documents `False`: in the two-document
corpus every query token occurs in exactly one document (idf
`log(1.5) - log(1.5) = 0`) or in none, so both BM25 scores are `0`,
below the threshold. -/
theorem claim_C3_amended : ∃ out,
    classify_with_keywords c3df "text" c3keywords 1 "bm25_score" "bm25_classification"
      = Except.ok out ∧
    out.col "bm25_classification" = [Cell.bool false, Cell.bool false] := c3_run

/-- Claim C3 counterexample: on this corpus, keywords and threshold the
classifier does NOT produce `[True, False]` — the first document is
classified `False`, refuting the claim as stated. -/
theorem claim_C3_counterexample :
    ¬ ∃ out,
      classify_with_keywords c3df "text" c3keywords 1 "bm25_score" "bm25_classification"
        = Except.ok out ∧
      out.col "bm25_classification" = [Cell.bool true, Cell.bool false] := by
  rintro ⟨out, hok, hcol⟩
  obtain ⟨o, ho, hco⟩ := c3_run
  rw [ho] at hok
  injection hok with h
  subst h
  rw [hco] at hcol
  simp at hcol

/-- Claim C4 (confirmed).  On a freshly constructed scorer (`fit` never
called, `self.bm25 = None`) the single-document `score` operation always
returns the NotFittedError (the `ValueError` "BM25 model not fitted.
Call fit() first." of the source) to the caller, for every keyword list
and every input text — there is no recovery path. -/
theorem claim_C4_theorem (keywords : List String) (text : String) :
    (BM25KeywordClassifier.init keywords).score text =
      Except.error BM25KeywordClassifier.notFittedMsg := rfl

/-- Claim C5 (confirmed).  For every scorer, dataframe, text field,
threshold and column names, whenever the text field exists the returned
frame's classification column is exactly the BM25 score list mapped
through the inclusive comparison `score >= threshold`. -/
theorem claim_C5_theorem (c : BM25KeywordClassifier) (df : DFrame)
    (textField : String) (t : ℝ) (sCol cCol : String) (h : textField ∈ df.cols) :
    ∃ c2 out, classify_dataframe c df textField t sCol cCol = Except.ok (c2, out) ∧
      out.col cCol = (bm25Scores c.keywords (corpusOf df textField)).map
        (fun s => Cell.bool (decide (t ≤ s))) := by
  refine ⟨_, _, classify_dataframe_ok c df textField t sCol cCol h, ?_⟩
  have hlen1 : ((bm25Scores c.keywords (corpusOf df textField)).map Cell.real).length
      = df.rows.length := by
    rw [List.length_map, length_bm25Scores, length_corpusOf]
  have hdf1 : (df.setCol sCol
      ((bm25Scores c.keywords (corpusOf df textField)).map Cell.real)).col sCol
      = (bm25Scores c.keywords (corpusOf df textField)).map Cell.real :=
    DFrame.col_setCol _ _ _ hlen1
  have hlen2 : ((((df.setCol sCol
        ((bm25Scores c.keywords (corpusOf df textField)).map Cell.real))).col sCol).map
        (fun cl => Cell.bool (cellGe cl t))).length
      = (df.setCol sCol
          ((bm25Scores c.keywords (corpusOf df textField)).map Cell.real)).rows.length := by
    rw [List.length_map, DFrame.length_col]
  rw [DFrame.col_setCol _ _ _ hlen2, hdf1, List.map_map]
  rfl

/-- Claim C5 witness: the theorem applied to the concrete scenario-1
frame. -/
theorem claim_C5_witness :
    ∃ c2 out, classify_dataframe (BM25KeywordClassifier.init c3keywords) c3df "text" 1
        "bm25_score" "bm25_classification" = Except.ok (c2, out) ∧
      out.col "bm25_classification" =
        (bm25Scores (BM25KeywordClassifier.init c3keywords).keywords
          (corpusOf c3df "text")).map (fun s => Cell.bool (decide ((1:ℝ) ≤ s))) :=
  claim_C5_theorem (BM25KeywordClassifier.init c3keywords) c3df "text" 1
    "bm25_score" "bm25_classification" (by decide)

/-- Claim C6 (amended).  Holding document length and the fitted corpus
statistics fixed, a document's BM25 score is monotonically non-decreasing
in the within-document frequency of the query terms PROVIDED every query
term's effective idf weight is nonnegative.  (The unconditional claim is
false: the epsilon floor `eps = 0.25 * average_idf` can be negative, see
the counterexample.) -/
theorem claim_C6_amended (docs : List (List String)) (query : List String)
    (d d2 : List String) (hlen : d.length = d2.length)
    (hcount : ∀ q ∈ query, List.count q d ≤ List.count q d2)
    (hidf : ∀ q ∈ query, 0 ≤ BM25.idfOrZero docs q) :
    BM25.docScore docs query d ≤ BM25.docScore docs query d2 := by
  unfold BM25.docScore
  rw [hlen]
  apply List.sum_le_sum
  intro q hq
  exact BM25.termScore_mono _ _ _ _ _ (hidf q hq) (BM25.avgdl_nonneg docs) (hcount q hq)

/-- Claim C6 witness: the amended theorem applied to an empty fitted
corpus (every idf weight is `0`), comparing term frequency `0` against
`1` at equal document length. -/
theorem claim_C6_witness :
    BM25.docScore [] ["a"] ["b"] ≤ BM25.docScore [] ["a"] ["a"] := by
  apply claim_C6_amended
  · decide
  · intro q hq; fin_cases hq; decide
  · intro q hq
    fin_cases hq
    rw [BM25.idfOrZero_of_not_mem _ _ (by decide)]

/-- Claim C6 counterexample.  In the fitted corpus `["a b", "a c"]` the
term `a` occurs in both documents, its raw idf `log(0.5) - log(2.5)` is
negative and is floored to `eps = 0.25 * average_idf < 0`.  Holding the
corpus statistics and the document length (2) fixed, raising the
within-document frequency of `a` from 1 (document `a b`) to 2 (document
`a a`) STRICTLY DECREASES the BM25 score, refuting the claim as
stated. -/
theorem claim_C6_counterexample :
    BM25.docScore c6docs ["a"] ["a", "a"] < BM25.docScore c6docs ["a"] ["a", "b"] := by
  unfold BM25.docScore
  simp only [List.map_cons, List.map_nil, List.sum_cons, List.sum_nil, add_zero]
  rw [show List.count "a" ["a", "a"] = 2 from by decide,
      show List.count "a" ["a", "b"] = 1 from by decide,
      show (["a", "a"] : List String).length = 2 from by decide,
      show (["a", "b"] : List String).length = 2 from by decide,
      c6_idfOrZero_a, c6_avgdl]
  unfold BM25.termScore BM25.k1 BM25.b
  have heps := c6_eps_neg
  have h1 : ((2:ℕ):ℝ) * (1.5 + 1) / (((2:ℕ):ℝ) + 1.5 * (1 - 0.75 + 0.75 * ((2:ℕ):ℝ) / 2))
      = 10/7 := by norm_num
  have h2 : ((1:ℕ):ℝ) * (1.5 + 1) / (((1:ℕ):ℝ) + 1.5 * (1 - 0.75 + 0.75 * ((2:ℕ):ℝ) / 2))
      = 1 := by norm_num
  rw [h1, h2]
  nlinarith

/-- Claim C7 (confirmed).  The two scoring paths disagree on the fitted
scenario-1 corpus: the naive single-document `score` of the first corpus
document is `2` (it counts the tokens `climate` and `change` once each),
while the batch corpus-relative BM25 path gives that same document the
score `0` — and `2 ≠ 0`. -/
theorem claim_C7_theorem :
    ((BM25KeywordClassifier.init c3keywords).fit c3corpus).score "climate change is real"
      = Except.ok 2 ∧
    bm25Scores c3keywords c3corpus = [0, 0] ∧ ((2:ℝ) ≠ 0) := by
  refine ⟨?_, c3_scores, by norm_num⟩
  have hr : ((BM25KeywordClassifier.init c3keywords).fit c3corpus).score
      "climate change is real" =
      Except.ok ((BM25KeywordClassifier.naiveKeywordCount c3keywords
        (tokenize "climate change is real") : ℕ) : ℝ) := rfl
  rw [hr, show BM25KeywordClassifier.naiveKeywordCount c3keywords
      (tokenize "climate change is real") = 2 from by decide]
  norm_num

/-- Claim C9 (confirmed).  `classify_dataframe` operates on a copy: the
caller's frame is untouched (the embedding is a pure function of it), the
returned frame consists of exactly the original columns — every original
column reads back unchanged — followed by the two appended columns, with
the original index labels in order; and the returned scorer state is the
input keywords plus the fitted statistics of the corpus, nothing else. -/
theorem claim_C9_theorem (c : BM25KeywordClassifier) (df : DFrame)
    (textField : String) (t : ℝ) (sCol cCol : String) (h : textField ∈ df.cols)
    (hs : sCol ∉ df.cols) (hc2 : cCol ∉ df.cols) (hsc : sCol ≠ cCol) :
    ∃ out, classify_dataframe c df textField t sCol cCol =
        Except.ok (⟨c.keywords, some ((corpusOf df textField).map tokenize)⟩, out) ∧
      out.cols = (df.cols ++ [sCol]) ++ [cCol] ∧
      out.rows.map Prod.fst = df.rows.map Prod.fst ∧
      ∀ name, name ≠ sCol → name ≠ cCol → out.col name = df.col name := by
  refine ⟨_, classify_dataframe_ok c df textField t sCol cCol h, ?_, ?_, ?_⟩
  · unfold DFrame.setCol
    simp only []
    rw [if_neg hs]
    rw [if_neg (by simp [List.mem_append, hc2, Ne.symm hsc])]
  · have hlen1 : ((bm25Scores c.keywords (corpusOf df textField)).map Cell.real).length
        = df.rows.length := by
      rw [List.length_map, length_bm25Scores, length_corpusOf]
    have hlen2 : ((((df.setCol sCol
          ((bm25Scores c.keywords (corpusOf df textField)).map Cell.real))).col sCol).map
          (fun cl => Cell.bool (cellGe cl t))).length
        = (df.setCol sCol
            ((bm25Scores c.keywords (corpusOf df textField)).map Cell.real)).rows.length := by
      rw [List.length_map, DFrame.length_col]
    rw [DFrame.rows_fst_setCol _ _ _ hlen2, DFrame.rows_fst_setCol _ _ _ hlen1]
  · intro name hns hnc
    have hlen1 : ((bm25Scores c.keywords (corpusOf df textField)).map Cell.real).length
        = df.rows.length := by
      rw [List.length_map, length_bm25Scores, length_corpusOf]
    have hlen2 : ((((df.setCol sCol
          ((bm25Scores c.keywords (corpusOf df textField)).map Cell.real))).col sCol).map
          (fun cl => Cell.bool (cellGe cl t))).length
        = (df.setCol sCol
            ((bm25Scores c.keywords (corpusOf df textField)).map Cell.real)).rows.length := by
      rw [List.length_map, DFrame.length_col]
    rw [DFrame.col_setCol_ne _ _ _ _ hnc hlen2, DFrame.col_setCol_ne _ _ _ _ hns hlen1]

/-- Claim C9 witness: the theorem applied to the concrete scenario-1
frame with fresh column names. -/
theorem claim_C9_witness :
    ∃ out, classify_dataframe (BM25KeywordClassifier.init c3keywords) c3df "text" 1
        "bm25_score" "bm25_classification" =
        Except.ok (⟨(BM25KeywordClassifier.init c3keywords).keywords,
          some ((corpusOf c3df "text").map tokenize)⟩, out) ∧
      out.cols = (c3df.cols ++ ["bm25_score"]) ++ ["bm25_classification"] ∧
      out.rows.map Prod.fst = c3df.rows.map Prod.fst ∧
      ∀ name, name ≠ "bm25_score" → name ≠ "bm25_classification" →
        out.col name = c3df.col name :=
  claim_C9_theorem (BM25KeywordClassifier.init c3keywords) c3df "text" 1
    "bm25_score" "bm25_classification" (by decide) (by decide) (by decide) (by decide)

/-! ## Helper lemmas and proof of claim C10 (`classify_by_language`) -/

theorem exists_of_mem_zipWith {α β γ : Type} (f : α → β → γ) :
    ∀ {l1 : List α} {l2 : List β} {c : γ}, c ∈ List.zipWith f l1 l2 →
      ∃ a ∈ l1, ∃ b ∈ l2, c = f a b := by
  intro l1
  induction l1 with
  | nil => intro l2 c h; simp at h
  | cons x xs ih =>
    intro l2 c h
    cases l2 with
    | nil => simp at h
    | cons y ys =>
      rw [List.zipWith_cons_cons, List.mem_cons] at h
      rcases h with rfl | h
      · exact ⟨x, List.mem_cons_self _ _, y, List.mem_cons_self _ _, rfl⟩
      · rcases ih h with ⟨a, ha, b, hb, rfl⟩
        exact ⟨a, List.mem_cons_of_mem _ ha, b, List.mem_cons_of_mem _ hb, rfl⟩

theorem DFrame.rows_length_setCol (df : DFrame) (name : String) (vals : List Cell)
    (h : vals.length = df.rows.length) :
    (df.setCol name vals).rows.length = df.rows.length := by
  unfold DFrame.setCol
  simp [h]

/-- The common shape of every frame produced inside `classify_by_language`:
the base group frame with the score column and then the classification
column assigned.  Index labels are preserved and every other column reads
back unchanged per row. -/
theorem double_setCol_spec (base : DFrame) (sCol cCol : String)
    (vals1 vals2 : List Cell)
    (h1 : vals1.length = base.rows.length)
    (h2 : vals2.length = (base.setCol sCol vals1).rows.length) :
    ((base.setCol sCol vals1).setCol cCol vals2).rows.map Prod.fst
      = base.rows.map Prod.fst ∧
    ∀ p ∈ ((base.setCol sCol vals1).setCol cCol vals2).rows, ∃ q ∈ base.rows,
      p.1 = q.1 ∧
      ∀ name, name ≠ sCol → name ≠ cCol → getVal p.2 name = getVal q.2 name := by
  constructor
  · rw [DFrame.rows_fst_setCol _ _ _ h2, DFrame.rows_fst_setCol _ _ _ h1]
  · intro p hp
    unfold DFrame.setCol at hp
    simp only [] at hp
    rcases exists_of_mem_zipWith _ hp with ⟨p1, hp1, v2, hv2, rfl⟩
    rcases exists_of_mem_zipWith _ hp1 with ⟨q, hq, v1, hv1, rfl⟩
    refine ⟨q, hq, rfl, ?_⟩
    intro name hns hnc
    rw [getVal_setKey_ne _ hnc, getVal_setKey_ne _ hns]

/-- Rows of the defaulted frames (`score = 0.0`, classification `False`)
carry exactly those two values. -/
theorem double_setColScalar_defaults (base : DFrame) (sCol cCol : String)
    (hsc : sCol ≠ cCol) :
    ∀ p ∈ ((base.setColScalar sCol (Cell.real 0)).setColScalar cCol (Cell.bool false)).rows,
      getVal p.2 sCol = some (Cell.real 0) ∧ getVal p.2 cCol = some (Cell.bool false) := by
  intro p hp
  unfold DFrame.setColScalar DFrame.setCol at hp
  simp only [] at hp
  rcases exists_of_mem_zipWith _ hp with ⟨p1, hp1, v2, hv2, rfl⟩
  rcases List.mem_map.mp hv2 with ⟨-, -, rfl⟩
  rcases exists_of_mem_zipWith _ hp1 with ⟨q, hq, v1, hv1, rfl⟩
  rcases List.mem_map.mp hv1 with ⟨-, -, rfl⟩
  constructor
  · rw [getVal_setKey_ne _ hsc, getVal_setKey_self]
  · rw [getVal_setKey_self]

/-- Partition permutation: when each row matches at most one language
filter and the language filters and the NaN filter cover all rows and
exclude each other, the concatenation of the per-language filters
followed by the NaN filter is a permutation of the rows. -/
theorem filters_partition_perm {α β : Type} (f : α → β) (na : α → Bool)
    (pred : String → α → Bool) :
    ∀ (ls : List String) (rows : List α), ls.Nodup →
      (∀ r ∈ rows, (∃ l ∈ ls, pred l r = true) ∨ na r = true) →
      (∀ r l, pred l r = true → na r = false) →
      (∀ r l l2, pred l r = true → pred l2 r = true → l = l2) →
      ((ls.map (fun l => (rows.filter (pred l)).map f)).flatten
        ++ (rows.filter na).map f).Perm (rows.map f) := by
  intro ls
  induction ls with
  | nil =>
    intro rows hnd hcover hdisj hdisj2
    have : rows.filter na = rows := by
      apply List.filter_eq_self.mpr
      intro r hr
      rcases hcover r hr with ⟨l, hl, -⟩ | h
      · exact absurd hl (List.not_mem_nil l)
      · exact h
    simp [this]
  | cons l ls ih =>
    intro rows hnd hcover hdisj hdisj2
    have hnd2 := (List.nodup_cons.mp hnd).2
    have hlnotin := (List.nodup_cons.mp hnd).1
    set rest := rows.filter (fun r => !(pred l r)) with hrest
    have hfilter_eq : ∀ l2 ∈ ls, rest.filter (pred l2) = rows.filter (pred l2) := by
      intro l2 hl2
      rw [hrest, List.filter_filter]
      apply List.filter_congr
      intro r hr
      by_cases hp : pred l2 r = true
      · have : pred l r = false := by
          by_contra hc
          rw [Bool.not_eq_false] at hc
          exact hlnotin (hdisj2 r l l2 hc hp ▸ hl2)
        simp [hp, this]
      · simp at hp
        simp [hp]
    have hna_eq : rest.filter na = rows.filter na := by
      rw [hrest, List.filter_filter]
      apply List.filter_congr
      intro r hr
      by_cases hn : na r = true
      · have : pred l r = false := by
          by_contra hc
          rw [Bool.not_eq_false] at hc
          rw [hdisj r l hc] at hn
          exact Bool.false_ne_true hn
        simp [hn, this]
      · simp at hn
        simp [hn]
    have hcover2 : ∀ r ∈ rest, (∃ l2 ∈ ls, pred l2 r = true) ∨ na r = true := by
      intro r hr
      have hrrows := List.mem_of_mem_filter hr
      have hnotl : pred l r = false := by
        have := List.of_mem_filter hr
        simpa using this
      rcases hcover r hrrows with ⟨l2, hl2, hp⟩ | h
      · rcases List.mem_cons.mp hl2 with rfl | hl2s
        · rw [hp] at hnotl; exact absurd hnotl (by simp)
        · exact Or.inl ⟨l2, hl2s, hp⟩
      · exact Or.inr h
    have ihp := ih rest hnd2 hcover2 hdisj hdisj2
    have hmap_eq : ls.map (fun l2 => (rows.filter (pred l2)).map f)
        = ls.map (fun l2 => (rest.filter (pred l2)).map f) := by
      apply List.map_congr_left
      intro l2 hl2
      rw [hfilter_eq l2 hl2]
    have step1 : ((l :: ls).map (fun l2 => (rows.filter (pred l2)).map f)).flatten
          ++ (rows.filter na).map f
        = (rows.filter (pred l)).map f
            ++ ((ls.map (fun l2 => (rest.filter (pred l2)).map f)).flatten
              ++ (rest.filter na).map f) := by
      rw [List.map_cons, List.flatten_cons, ← hmap_eq, hna_eq, List.append_assoc]
    rw [step1]
    have step2 : ((rows.filter (pred l)).map f
          ++ ((ls.map (fun l2 => (rest.filter (pred l2)).map f)).flatten
            ++ (rest.filter na).map f)).Perm
        ((rows.filter (pred l)).map f ++ rest.map f) :=
      List.Perm.append_left _ ihp
    apply step2.trans
    rw [← List.map_append]
    apply List.Perm.map
    exact List.filter_append_perm _ rows

/-- Membership form of `double_setColScalar_defaults` rows. -/
theorem setColScalar_rows_shape (base : DFrame) (sCol cCol : String) :
    ((base.setColScalar sCol (Cell.real 0)).setColScalar cCol (Cell.bool false))
      = (base.setCol sCol (base.rows.map (fun _ => Cell.real 0))).setCol cCol
          ((base.setCol sCol (base.rows.map (fun _ => Cell.real 0))).rows.map
            (fun _ => Cell.bool false)) := rfl

/-- Specification of the per-language loop: it always succeeds when the
text field exists, and each produced frame consists of its language's
filtered rows with the two columns assigned — index labels preserved,
other columns unchanged per row, and the default values present when the
language has no keywords. -/
theorem classifyGroups_spec (df : DFrame) (textField : String) (t : ℝ)
    (langCol : String) (kwOf : String → List String) (sCol cCol : String)
    (htf : textField ∈ df.cols) (hsc : sCol ≠ cCol) :
    ∀ ls : List String, ∃ gs,
      classifyGroups df textField t langCol kwOf sCol cCol ls = Except.ok gs ∧
      List.Forall₂ (fun l g =>
        g.rows.map Prod.fst
          = (df.rows.filter (fun r => cellEqStr (langCell langCol r) l)).map Prod.fst ∧
        ∀ p ∈ g.rows, ∃ q ∈ df.rows,
          cellEqStr (langCell langCol q) l = true ∧ p.1 = q.1 ∧
          (∀ name, name ≠ sCol → name ≠ cCol → getVal p.2 name = getVal q.2 name) ∧
          (kwOf l = [] →
            getVal p.2 sCol = some (Cell.real 0) ∧
            getVal p.2 cCol = some (Cell.bool false))) ls gs := by
  intro ls
  induction ls with
  | nil => exact ⟨[], rfl, List.Forall₂.nil⟩
  | cons l ls ih =>
    obtain ⟨gs, hgs, hfa⟩ := ih
    set langDf := df.filterRows (fun r => cellEqStr (langCell langCol r) l) with hlangDf
    have hqmem : ∀ q ∈ langDf.rows, q ∈ df.rows ∧ cellEqStr (langCell langCol q) l = true := by
      intro q hq
      have hq2 : q ∈ List.filter (fun r => cellEqStr (langCell langCol r) l) df.rows := hq
      have hq3 := List.mem_filter.mp hq2
      exact ⟨hq3.1, hq3.2⟩
    by_cases hkw : kwOf l = []
    · refine ⟨(langDf.setColScalar sCol (Cell.real 0)).setColScalar cCol (Cell.bool false)
          :: gs, ?_, ?_⟩
      · simp only [classifyGroups, hkw, if_true, hgs]
      · refine List.Forall₂.cons ⟨?_, ?_⟩ hfa
        · rw [setColScalar_rows_shape]
          have hspec := double_setCol_spec langDf sCol cCol
            (langDf.rows.map (fun _ => Cell.real 0))
            ((langDf.setCol sCol (langDf.rows.map (fun _ => Cell.real 0))).rows.map
              (fun _ => Cell.bool false))
            (by rw [List.length_map]) (by rw [List.length_map])
          exact hspec.1
        · intro p hp
          have hdef := double_setColScalar_defaults langDf sCol cCol hsc p hp
          rw [setColScalar_rows_shape] at hp
          have hspec := double_setCol_spec langDf sCol cCol
            (langDf.rows.map (fun _ => Cell.real 0))
            ((langDf.setCol sCol (langDf.rows.map (fun _ => Cell.real 0))).rows.map
              (fun _ => Cell.bool false))
            (by rw [List.length_map]) (by rw [List.length_map])
          obtain ⟨q, hq, hfst, hpres⟩ := hspec.2 p hp
          obtain ⟨hqdf, hqlang⟩ := hqmem q hq
          exact ⟨q, hqdf, hqlang, hfst, hpres, fun _ => hdef⟩
    · have htf2 : textField ∈ langDf.cols := htf
      refine ⟨((langDf.setCol sCol
            ((bm25Scores (BM25KeywordClassifier.init (kwOf l)).keywords
              (corpusOf langDf textField)).map Cell.real)).setCol cCol
            (((langDf.setCol sCol
                ((bm25Scores (BM25KeywordClassifier.init (kwOf l)).keywords
                  (corpusOf langDf textField)).map Cell.real)).col sCol).map
              (fun cl => Cell.bool (cellGe cl t)))) :: gs, ?_, ?_⟩
      · simp only [classifyGroups, hkw, if_false, hgs, classify_with_keywords,
          classify_dataframe_ok _ _ _ _ _ _ htf2, Except.map]
      · have h1 : ((bm25Scores (BM25KeywordClassifier.init (kwOf l)).keywords
            (corpusOf langDf textField)).map Cell.real).length = langDf.rows.length := by
          rw [List.length_map, length_bm25Scores, length_corpusOf]
        have h2 : (((langDf.setCol sCol
              ((bm25Scores (BM25KeywordClassifier.init (kwOf l)).keywords
                (corpusOf langDf textField)).map Cell.real)).col sCol).map
              (fun cl => Cell.bool (cellGe cl t))).length
            = (langDf.setCol sCol
                ((bm25Scores (BM25KeywordClassifier.init (kwOf l)).keywords
                  (corpusOf langDf textField)).map Cell.real)).rows.length := by
          rw [List.length_map, DFrame.length_col]
        have hspec := double_setCol_spec langDf sCol cCol _ _ h1 h2
        refine List.Forall₂.cons ⟨hspec.1, ?_⟩ hfa
        intro p hp
        obtain ⟨q, hq, hfst, hpres⟩ := hspec.2 p hp
        obtain ⟨hqdf, hqlang⟩ := hqmem q hq
        exact ⟨q, hqdf, hqlang, hfst, hpres, fun hcontr => absurd hcontr hkw⟩

theorem forall2_map_eq {α β γ : Type} {R : α → β → Prop} {F : β → γ} {G : α → γ}
    (hFG : ∀ a b, R a b → F b = G a) :
    ∀ {ls : List α} {gs : List β}, List.Forall₂ R ls gs → gs.map F = ls.map G := by
  intro ls gs h
  induction h with
  | nil => rfl
  | cons hR hrest ih =>
    simp only [List.map_cons, ih]
    rw [hFG _ _ hR]

theorem forall2_mem_right {α β : Type} {R : α → β → Prop} :
    ∀ {ls : List α} {gs : List β}, List.Forall₂ R ls gs → ∀ g ∈ gs, ∃ l ∈ ls, R l g := by
  intro ls gs h
  induction h with
  | nil => intro g hg; exact absurd hg (List.not_mem_nil g)
  | cons hR hrest ih =>
    intro g hg
    rcases List.mem_cons.mp hg with rfl | hg2
    · exact ⟨_, List.mem_cons_self _ _, hR⟩
    · rcases ih g hg2 with ⟨l2, hl2, hRl2⟩
      exact ⟨l2, List.mem_cons_of_mem _ hl2, hRl2⟩

theorem cellEqStr_eq {c : Cell} {l : String} (h : cellEqStr c l = true) : c = Cell.str l := by
  cases c <;> simp [cellEqStr] at h ⊢
  exact h

theorem cellIsNa_eq {c : Cell} (h : cellIsNa c = true) : c = Cell.na := by
  cases c <;> simp [cellIsNa] at h ⊢

theorem sortIndex_rows_perm (df : DFrame) : (sortIndex df).rows.Perm df.rows :=
  List.mergeSort_perm df.rows _

theorem sortIndex_sorted_fst (df : DFrame) :
    List.Sorted (· ≤ ·) ((sortIndex df).rows.map Prod.fst) := by
  unfold sortIndex
  have hp := @List.sorted_mergeSort _
    (fun (a r : ℕ × List (String × Cell)) => a.1 ≤ r.1)
    (fun a r c h1 h2 => by
      simp only [decide_eq_true_eq] at h1 h2 ⊢
      exact le_trans h1 h2)
    (fun a r => by
      simp only [Bool.or_eq_true, decide_eq_true_eq]
      exact Nat.le_total a.1 r.1)
    df.rows
  have hm := List.Pairwise.map (S := fun (a r : ℕ) => a ≤ r) Prod.fst
    (fun a r h => by simpa using h) hp
  exact hm

theorem sorted_concat_spec (df : DFrame) (dfs : List DFrame)
    (sCol cCol langCol : String) (kwOf : String → List String)
    (hperm : ((dfs.map (fun g => g.rows.map Prod.fst)).flatten).Perm (df.rows.map Prod.fst))
    (hrows : ∀ g ∈ dfs, ∀ p ∈ g.rows, ∃ q ∈ df.rows, p.1 = q.1 ∧
      (∀ name, name ≠ sCol → name ≠ cCol → getVal p.2 name = getVal q.2 name) ∧
      ((∀ l, cellStr (langCell langCol q) = some l → kwOf l = []) →
        getVal p.2 sCol = some (Cell.real 0) ∧ getVal p.2 cCol = some (Cell.bool false))) :
    ((sortIndex (dfConcat dfs)).rows.map Prod.fst).Perm (df.rows.map Prod.fst) ∧
    List.Sorted (· ≤ ·) ((sortIndex (dfConcat dfs)).rows.map Prod.fst) ∧
    ∀ p ∈ (sortIndex (dfConcat dfs)).rows, ∃ q ∈ df.rows, p.1 = q.1 ∧
      (∀ name, name ≠ sCol → name ≠ cCol → getVal p.2 name = getVal q.2 name) ∧
      ((∀ l, cellStr (langCell langCol q) = some l → kwOf l = []) →
        getVal p.2 sCol = some (Cell.real 0) ∧ getVal p.2 cCol = some (Cell.bool false)) := by
  have hconcatperm : (sortIndex (dfConcat dfs)).rows.Perm (dfConcat dfs).rows :=
    sortIndex_rows_perm _
  refine ⟨?_, sortIndex_sorted_fst _, ?_⟩
  · have h1 : ((sortIndex (dfConcat dfs)).rows.map Prod.fst).Perm
        ((dfConcat dfs).rows.map Prod.fst) := hconcatperm.map _
    apply h1.trans
    have h2 : (dfConcat dfs).rows.map Prod.fst
        = ((dfs.map DFrame.rows).flatten).map Prod.fst := rfl
    rw [h2, List.map_flatten, List.map_map]
    exact hperm
  · intro p hp
    have hp2 : p ∈ (dfConcat dfs).rows := hconcatperm.mem_iff.mp hp
    have hp3 : p ∈ (dfs.map DFrame.rows).flatten := hp2
    rcases List.mem_flatten.mp hp3 with ⟨rws, hrws, hpin⟩
    rcases List.mem_map.mp hrws with ⟨g, hg, rfl⟩
    exact hrows g hg p hpin

/-- Claim C10 (confirmed).  For a dataframe whose language column holds
strings or missing values, `classify_by_language` succeeds and returns a
frame whose index-label sequence is a permutation of the input's, sorted
ascending (`sort_index`); every output row stems from an input row with
the same index label and with every column other than the two new ones
unchanged; and every row whose language is missing or has no keyword set
(`kwOf` empty) carries score `0.0` and classification `False` — included
and defaulted, not excluded. -/
theorem claim_C10_theorem (df : DFrame) (textField : String) (t : ℝ)
    (langCol : String) (kwOf : String → List String) (sCol cCol : String)
    (hl : langCol ∈ df.cols) (htf : textField ∈ df.cols) (hsc : sCol ≠ cCol)
    (hcells : ∀ r ∈ df.rows, langCell langCol r = Cell.na ∨
      ∃ s, langCell langCol r = Cell.str s)
    (hne : df.rows ≠ []) :
    ∃ out, classify_by_language df textField t langCol kwOf sCol cCol = Except.ok out ∧
      (out.rows.map Prod.fst).Perm (df.rows.map Prod.fst) ∧
      List.Sorted (· ≤ ·) (out.rows.map Prod.fst) ∧
      ∀ p ∈ out.rows, ∃ q ∈ df.rows, p.1 = q.1 ∧
        (∀ name, name ≠ sCol → name ≠ cCol → getVal p.2 name = getVal q.2 name) ∧
        ((∀ l, cellStr (langCell langCol q) = some l → kwOf l = []) →
          getVal p.2 sCol = some (Cell.real 0) ∧ getVal p.2 cCol = some (Cell.bool false)) := by
  obtain ⟨gs, hgs, hfa⟩ := classifyGroups_spec df textField t langCol kwOf sCol cCol htf hsc
    (dedupFirst (df.rows.filterMap (fun r => cellStr (langCell langCol r))))
  have hgrows : ∀ g ∈ gs, ∀ p ∈ g.rows, ∃ q ∈ df.rows, p.1 = q.1 ∧
      (∀ name, name ≠ sCol → name ≠ cCol → getVal p.2 name = getVal q.2 name) ∧
      ((∀ l, cellStr (langCell langCol q) = some l → kwOf l = []) →
        getVal p.2 sCol = some (Cell.real 0) ∧ getVal p.2 cCol = some (Cell.bool false)) := by
    intro g hg p hp
    rcases forall2_mem_right hfa g hg with ⟨l, hlmem, hR⟩
    rcases hR.2 p hp with ⟨q, hqdf, hqlang, hfst, hpres, hdef⟩
    refine ⟨q, hqdf, hfst, hpres, ?_⟩
    intro hA
    have hcell := cellEqStr_eq hqlang
    exact hdef (hA l (by rw [hcell]; rfl))
  have hmrows : ∀ p ∈ (((df.filterRows (fun r => cellIsNa (langCell langCol r))).setColScalar
        sCol (Cell.real 0)).setColScalar cCol (Cell.bool false)).rows,
      ∃ q ∈ df.rows, p.1 = q.1 ∧
      (∀ name, name ≠ sCol → name ≠ cCol → getVal p.2 name = getVal q.2 name) ∧
      ((∀ l, cellStr (langCell langCol q) = some l → kwOf l = []) →
        getVal p.2 sCol = some (Cell.real 0) ∧ getVal p.2 cCol = some (Cell.bool false)) := by
    intro p hp
    have hdef := double_setColScalar_defaults _ sCol cCol hsc p hp
    rw [setColScalar_rows_shape] at hp
    have hspec := double_setCol_spec (df.filterRows (fun r => cellIsNa (langCell langCol r)))
      sCol cCol
      ((df.filterRows (fun r => cellIsNa (langCell langCol r))).rows.map (fun _ => Cell.real 0))
      (((df.filterRows (fun r => cellIsNa (langCell langCol r))).setCol sCol
        ((df.filterRows (fun r => cellIsNa (langCell langCol r))).rows.map
          (fun _ => Cell.real 0))).rows.map (fun _ => Cell.bool false))
      (by rw [List.length_map]) (by rw [List.length_map])
    obtain ⟨q, hq, hfst, hpres⟩ := hspec.2 p hp
    have hq2 : q ∈ List.filter (fun r => cellIsNa (langCell langCol r)) df.rows := hq
    have hq3 := List.mem_filter.mp hq2
    exact ⟨q, hq3.1, hfst, hpres, fun _ => hdef⟩
  have hmapeq : gs.map (fun g => g.rows.map Prod.fst)
      = (dedupFirst (df.rows.filterMap (fun r => cellStr (langCell langCol r)))).map
          (fun l => (df.rows.filter
            (fun r => cellEqStr (langCell langCol r) l)).map Prod.fst) :=
    forall2_map_eq (fun l g hR => hR.1) hfa
  have hpartition := filters_partition_perm Prod.fst
    (fun r => cellIsNa (langCell langCol r))
    (fun l r => cellEqStr (langCell langCol r) l)
    (dedupFirst (df.rows.filterMap (fun r => cellStr (langCell langCol r))))
    df.rows
    (nodup_dedupFirst _)
    (by
      intro r hr
      rcases hcells r hr with hna | ⟨s, hstr⟩
      · right
        show cellIsNa (langCell langCol r) = true
        rw [hna]
        rfl
      · left
        refine ⟨s, ?_, ?_⟩
        · rw [mem_dedupFirst]
          exact List.mem_filterMap.mpr ⟨r, hr, by rw [hstr]; rfl⟩
        · show cellEqStr (langCell langCol r) s = true
          rw [hstr]
          simp [cellEqStr])
    (by
      intro r l hp
      have hp2 : cellEqStr (langCell langCol r) l = true := hp
      show cellIsNa (langCell langCol r) = false
      rw [cellEqStr_eq hp2]
      rfl)
    (by
      intro r l l2 h1 h2
      have h1b : cellEqStr (langCell langCol r) l = true := h1
      have h2b : cellEqStr (langCell langCol r) l2 = true := h2
      have e1 := cellEqStr_eq h1b
      have e2 := cellEqStr_eq h2b
      rw [e1] at e2
      exact Cell.str.inj e2)
  by_cases hmp : (df.filterRows (fun r => cellIsNa (langCell langCol r))).rows.isEmpty = true
  · have hmnil : List.filter (fun r => cellIsNa (langCell langCol r)) df.rows = [] :=
      List.isEmpty_iff.mp hmp
    have hgsne : gs.isEmpty = false := by
      obtain ⟨r0, hr0⟩ := List.exists_mem_of_ne_nil df.rows hne
      rcases hcells r0 hr0 with hna | ⟨s, hstr⟩
      · exfalso
        have hmem : r0 ∈ List.filter (fun r => cellIsNa (langCell langCol r)) df.rows :=
          List.mem_filter.mpr ⟨hr0, show cellIsNa (langCell langCol r0) = true from
            by rw [hna]; rfl⟩
        rw [hmnil] at hmem
        exact absurd hmem (List.not_mem_nil r0)
      · have hs : s ∈ dedupFirst (df.rows.filterMap (fun r => cellStr (langCell langCol r))) := by
          rw [mem_dedupFirst]
          exact List.mem_filterMap.mpr ⟨r0, hr0, by rw [hstr]; rfl⟩
        have hlen := List.Forall₂.length_eq hfa
        cases gs with
        | nil =>
          exfalso
          rw [List.length_nil] at hlen
          rw [List.length_eq_zero.mp hlen] at hs
          exact absurd hs (List.not_mem_nil s)
        | cons g gtail => rfl
    have hrun : classify_by_language df textField t langCol kwOf sCol cCol
        = Except.ok (sortIndex (dfConcat gs)) := by
      simp only [classify_by_language, hl, if_true, hgs, hmp, hgsne, Bool.false_eq_true,
        if_false, if_true]
    have hperm2 : ((gs.map (fun g => g.rows.map Prod.fst)).flatten).Perm
        (df.rows.map Prod.fst) := by
      have := hpartition
      rw [hmnil] at this
      simpa [hmapeq] using this
    obtain ⟨h1, h2, h3⟩ := sorted_concat_spec df gs sCol cCol langCol kwOf hperm2 hgrows
    exact ⟨_, hrun, h1, h2, h3⟩
  · have hmpf : (df.filterRows (fun r => cellIsNa (langCell langCol r))).rows.isEmpty
        = false := by
      revert hmp
      cases (df.filterRows (fun r => cellIsNa (langCell langCol r))).rows.isEmpty <;> simp
    have hADne : (gs ++ [((df.filterRows (fun r => cellIsNa (langCell langCol r))).setColScalar
        sCol (Cell.real 0)).setColScalar cCol (Cell.bool false)]).isEmpty = false := by
      cases gs <;> rfl
    have hrun : classify_by_language df textField t langCol kwOf sCol cCol
        = Except.ok (sortIndex (dfConcat (gs ++
          [((df.filterRows (fun r => cellIsNa (langCell langCol r))).setColScalar
            sCol (Cell.real 0)).setColScalar cCol (Cell.bool false)]))) := by
      simp only [classify_by_language, hl, if_true, hgs, hmpf, Bool.false_eq_true, if_false,
        hADne]
    have hmfst : ((((df.filterRows (fun r => cellIsNa (langCell langCol r))).setColScalar
          sCol (Cell.real 0)).setColScalar cCol (Cell.bool false)).rows).map Prod.fst
        = (List.filter (fun r => cellIsNa (langCell langCol r)) df.rows).map Prod.fst := by
      rw [setColScalar_rows_shape]
      exact (double_setCol_spec (df.filterRows (fun r => cellIsNa (langCell langCol r)))
        sCol cCol _ _ (by rw [List.length_map]) (by rw [List.length_map])).1
    have hperm2 : (((gs ++ [((df.filterRows (fun r => cellIsNa (langCell langCol r))).setColScalar
          sCol (Cell.real 0)).setColScalar cCol (Cell.bool false)]).map
          (fun g => g.rows.map Prod.fst)).flatten).Perm (df.rows.map Prod.fst) := by
      rw [List.map_append, List.flatten_append, hmapeq]
      simp only [List.map_cons, List.map_nil, List.flatten_cons, List.flatten_nil,
        List.append_nil]
      rw [hmfst]
      exact hpartition
    have hrows2 : ∀ g ∈ (gs ++ [((df.filterRows
          (fun r => cellIsNa (langCell langCol r))).setColScalar
          sCol (Cell.real 0)).setColScalar cCol (Cell.bool false)]),
        ∀ p ∈ g.rows, ∃ q ∈ df.rows, p.1 = q.1 ∧
        (∀ name, name ≠ sCol → name ≠ cCol → getVal p.2 name = getVal q.2 name) ∧
        ((∀ l, cellStr (langCell langCol q) = some l → kwOf l = []) →
          getVal p.2 sCol = some (Cell.real 0) ∧ getVal p.2 cCol = some (Cell.bool false)) := by
      intro g hg
      rcases List.mem_append.mp hg with hg2 | hg2
      · exact hgrows g hg2
      · rcases List.mem_cons.mp hg2 with rfl | hg3
        · exact hmrows
        · exact absurd hg3 (List.not_mem_nil g)
    obtain ⟨h1, h2, h3⟩ := sorted_concat_spec df _ sCol cCol langCol kwOf hperm2 hrows2
    exact ⟨_, hrun, h1, h2, h3⟩

/-- Claim C10 witness: the theorem applied to the concrete frame with an
English row, a missing-language row, and a row in a language without
keywords. -/
theorem claim_C10_witness :
    ∃ out, classify_by_language c10df "text" 2 "lang" c10kwOf
        "bm25_score" "bm25_classification" = Except.ok out ∧
      (out.rows.map Prod.fst).Perm (c10df.rows.map Prod.fst) ∧
      List.Sorted (· ≤ ·) (out.rows.map Prod.fst) ∧
      ∀ p ∈ out.rows, ∃ q ∈ c10df.rows, p.1 = q.1 ∧
        (∀ name, name ≠ "bm25_score" → name ≠ "bm25_classification" →
          getVal p.2 name = getVal q.2 name) ∧
        ((∀ l, cellStr (langCell "lang" q) = some l → c10kwOf l = []) →
          getVal p.2 "bm25_score" = some (Cell.real 0) ∧
          getVal p.2 "bm25_classification" = some (Cell.bool false)) :=
  claim_C10_theorem c10df "text" 2 "lang" c10kwOf "bm25_score" "bm25_classification"
    (by decide) (by decide) (by decide)
    (by
      intro r hr
      fin_cases hr
      · exact Or.inr ⟨"eng", rfl⟩
      · exact Or.inl rfl
      · exact Or.inr ⟨"xyz", rfl⟩)
    (List.cons_ne_nil _ _)
